import Mathlib

/-!
Shallow embedding of the Teaching-Tools repository (a React grading app).

The data model follows `src/types.ts`; the grading operations follow
`src/views/GradingView.tsx`; the PDF splitter follows
`src/services/pdfSplittingService.ts`; the AI gateway follows
`src/services/geminiService.ts`.

Modelling conventions:
* TypeScript `number` is modelled as `ℚ` for scores and `Int` for page numbers
  and timestamps.
* A JS object used as a string-keyed record (`Record<string, QuestionGrade>`)
  is modelled as an insertion-ordered association list; the spread update
  `{...m, [k]: v}` replaces in place when the key exists, else appends.
* Optional fields (`field?:`) are `Option`; JS string truthiness (`if (s)`)
  is "present and non-empty".
* `async` operations are modelled by passing the awaited value (the AI
  response, the parse outcome) as an explicit argument; fallible library
  calls return `Option`/`Except`.
-/

namespace TeachingTools

/-! ## Data model (src/types.ts) -/

inductive AssessmentStatus
  | DRAFT
  | READY
  | GRADING
  | COMPLETED
deriving DecidableEq, Repr

inductive QuestionType
  | FRQ
  | MCQ
deriving DecidableEq, Repr

structure RubricItem where
  id : String
  question : String
  maxPoints : ℚ
  criteria : String
  type : QuestionType
  correctAnswer : Option String
deriving DecidableEq, Repr

structure QuestionGrade where
  score : ℚ
  comment : String
  studentAnswer : Option String
  isAiSuggested : Option Bool
deriving DecidableEq, Repr

inductive SubmissionStatus
  | PENDING
  | GRADED
deriving DecidableEq, Repr

structure StudentSubmission where
  id : String
  studentName : String
  fileData : Option String
  fileType : String
  fileName : String
  grades : List (String × QuestionGrade)
  status : SubmissionStatus
  totalScore : ℚ
deriving DecidableEq, Repr

structure Assessment where
  id : String
  title : String
  description : String
  status : AssessmentStatus
  rubric : List RubricItem
  students : List StudentSubmission
  cannedComments : List String
  created : Int
deriving DecidableEq, Repr

structure AiGradingResult where
  questionId : String
  score : ℚ
  comment : String
  studentAnswer : Option String
deriving DecidableEq, Repr

/-! ## JS record helpers -/

/-- JS truthiness of an optional string field: present and non-empty. -/
def truthy : Option String → Bool
  | none => false
  | some s => s ≠ ""

/-- `m[k]` on a string-keyed JS object modelled as an insertion-ordered
association list (keys are unique, as in any JS object). -/
def recordGet (m : List (String × QuestionGrade)) (k : String) : Option QuestionGrade :=
  match m with
  | [] => none
  | p :: ps => if p.1 = k then some p.2 else recordGet ps k

/-- `{...m, [k]: v}`: replace in place when the key exists, else append. -/
def recordSet (m : List (String × QuestionGrade)) (k : String) (v : QuestionGrade) :
    List (String × QuestionGrade) :=
  match m with
  | [] => [(k, v)]
  | p :: ps => if p.1 = k then (k, v) :: ps else p :: recordSet ps k v

/-- `Object.values(m).reduce((sum, g) => sum + g.score, 0)`. -/
def sumScores (m : List (String × QuestionGrade)) : ℚ :=
  (m.map (fun p => p.2.score)).sum

/-! ## Grading operations (src/views/GradingView.tsx) -/

/-- `Partial<QuestionGrade>`: the update object passed to `handleGradeChange`;
a `none` field is a key absent from the object. -/
structure GradePatch where
  score : Option ℚ
  comment : Option String
  studentAnswer : Option String
  isAiSuggested : Option Bool
deriving DecidableEq, Repr

/-- The empty update object. -/
def GradePatch.empty : GradePatch :=
  { score := none, comment := none, studentAnswer := none, isAiSuggested := none }

/-- The default grade `{ score: 0, comment: '' }` used when a student has no
entry yet for a question (GradingView.tsx line 99). -/
def gradeDefault : QuestionGrade :=
  { score := 0, comment := "", studentAnswer := none, isAiSuggested := none }

/-- The spread merge `{ ...currentGrade, ...newGradeData }`: fields present in
the update override the base. -/
def applyPatch (g : QuestionGrade) (p : GradePatch) : QuestionGrade :=
  { score := p.score.getD g.score
    comment := p.comment.getD g.comment
    studentAnswer := match p.studentAnswer with | some v => some v | none => g.studentAnswer
    isAiSuggested := match p.isAiSuggested with | some v => some v | none => g.isAiSuggested }

/-- The update object after the MCQ auto-recalculation block of
`handleGradeChange` (GradingView.tsx lines 87-97): when the rubric item is MCQ,
the update carries a `studentAnswer` key, and the item has a truthy
`correctAnswer`, the score is recomputed from the trimmed upper-cased letters
and the stored student answer is normalised. -/
def effectivePatch (rubric : List RubricItem) (questionId : String) (gradeData : GradePatch) :
    GradePatch :=
  match rubric.find? (fun r => r.id = questionId) with
  | none => gradeData
  | some rubricItem =>
    match rubricItem.correctAnswer, gradeData.studentAnswer with
    | some ca, some ans =>
      if rubricItem.type = QuestionType.MCQ ∧ ca ≠ "" then
        let newVal := ans.trim.toUpper
        let correct := ca.trim.toUpper
        { gradeData with
          score := some (if newVal = correct then rubricItem.maxPoints else 0)
          studentAnswer := some newVal }
      else gradeData
    | _, _ => gradeData

/-- The `updatedStudent` built by `handleGradeChange` (GradingView.tsx lines
99-113): merge the update into the current (or default) grade, recompute the
total as the sum over all entries, and mark the student graded. -/
def gradeUpdatedStudent (rubric : List RubricItem) (questionId : String) (gradeData : GradePatch)
    (selectedStudent : StudentSubmission) : StudentSubmission :=
  let newGradeData := effectivePatch rubric questionId gradeData
  let currentGrade := (recordGet selectedStudent.grades questionId).getD gradeDefault
  let newGrades := recordSet selectedStudent.grades questionId (applyPatch currentGrade newGradeData)
  { selectedStudent with
    grades := newGrades
    totalScore := sumScores newGrades
    status := SubmissionStatus.GRADED }

/-- `handleGradeChange` (GradingView.tsx lines 84-120). The component state
`selectedStudentId` is an explicit argument; when no student matches, the
handler returns without emitting an update. -/
def handleGradeChange (a : Assessment) (selectedStudentId : String) (questionId : String)
    (gradeData : GradePatch) : Assessment :=
  match a.students.find? (fun s => s.id = selectedStudentId) with
  | none => a
  | some selectedStudent =>
    { a with students := a.students.map (fun s =>
        if s.id = selectedStudentId then
          gradeUpdatedStudent a.rubric questionId gradeData selectedStudent
        else s) }

/-- The `updatedStudent` built by `handleKeyChange` (GradingView.tsx lines
137-151): re-score the answered question against the new key and recompute the
total; the status field is left unchanged. -/
def keyUpdatedStudent (rubricItem : RubricItem) (questionId newKey ans : String)
    (currentGrade : QuestionGrade) (selectedStudent : StudentSubmission) : StudentSubmission :=
  let isCorrect := ans.trim.toUpper = newKey.trim.toUpper
  let newScore := if isCorrect then rubricItem.maxPoints else 0
  let newGrades := recordSet selectedStudent.grades questionId
    { currentGrade with score := newScore }
  { selectedStudent with grades := newGrades, totalScore := sumScores newGrades }

/-- `handleKeyChange` (GradingView.tsx lines 122-160): update the rubric's
correct answer, and re-grade the selected student's answer for that question
when one is present. -/
def handleKeyChange (a : Assessment) (selectedStudentId : String) (questionId : String)
    (newKey : String) : Assessment :=
  let updatedRubric := a.rubric.map (fun r =>
    if r.id = questionId then { r with correctAnswer := some newKey.toUpper } else r)
  let updatedStudents :=
    match a.students.find? (fun s => s.id = selectedStudentId) with
    | none => a.students
    | some selectedStudent =>
      match updatedRubric.find? (fun r => r.id = questionId),
            recordGet selectedStudent.grades questionId with
      | some rubricItem, some currentGrade =>
        match currentGrade.studentAnswer with
        | some ans =>
          if ans ≠ "" then
            a.students.map (fun s =>
              if s.id = selectedStudent.id then
                keyUpdatedStudent rubricItem questionId newKey ans currentGrade selectedStudent
              else s)
          else a.students
        | none => a.students
      | _, _ => a.students
  { a with rubric := updatedRubric, students := updatedStudents }

/-- The score stored for one AI result (GradingView.tsx lines 176-184): for an
MCQ item with truthy correct answer and truthy detected student answer the
suggested score is replaced by the strict comparison, otherwise the suggested
score is kept. -/
def aiFinalScore (rubric : List RubricItem) (res : AiGradingResult) : ℚ :=
  match rubric.find? (fun r => r.id = res.questionId) with
  | none => res.score
  | some rubricItem =>
    match rubricItem.correctAnswer, res.studentAnswer with
    | some ca, some sa =>
      if rubricItem.type = QuestionType.MCQ ∧ ca ≠ "" ∧ sa ≠ "" then
        if ca.trim.toUpper = sa.trim.toUpper then rubricItem.maxPoints else 0
      else res.score
    | _, _ => res.score

/-- One iteration of the `results.forEach` loop of `runAiGrading`
(GradingView.tsx lines 176-193): write the grade entry and add the final score
to the running total. -/
def aiStep (rubric : List RubricItem) (acc : List (String × QuestionGrade) × ℚ)
    (res : AiGradingResult) : List (String × QuestionGrade) × ℚ :=
  let finalScore := aiFinalScore rubric res
  (recordSet acc.1 res.questionId
    { score := finalScore, comment := res.comment, studentAnswer := res.studentAnswer,
      isAiSuggested := some true },
   acc.2 + finalScore)

/-- The `updatedStudent` built by `runAiGrading` (GradingView.tsx lines
173-200): fold the results into the grades mapping while accumulating
`newTotal` from 0 over the applied final scores only. -/
def aiUpdatedStudent (rubric : List RubricItem) (results : List AiGradingResult)
    (selectedStudent : StudentSubmission) : StudentSubmission :=
  let nt := results.foldl (aiStep rubric) (selectedStudent.grades, 0)
  { selectedStudent with
    grades := nt.1
    totalScore := nt.2
    status := SubmissionStatus.GRADED }

/-- `runAiGrading` (GradingView.tsx lines 162-214) after the awaited
`gradeStudentSubmission` call returned `results`: merge the AI results into the
selected student's grades. The handler returns without an update when no
student is selected or the student has no truthy file payload; the error branch
(lines 208-213) performs no state update either. -/
def runAiGrading (a : Assessment) (selectedStudentId : String)
    (results : List AiGradingResult) : Assessment :=
  match a.students.find? (fun s => s.id = selectedStudentId) with
  | none => a
  | some selectedStudent =>
    if truthy selectedStudent.fileData then
      { a with students := a.students.map (fun s =>
          if s.id = selectedStudentId then aiUpdatedStudent a.rubric results selectedStudent
          else s) }
    else a

/-- `addCannedComment` (GradingView.tsx lines 216-223): append the comment only
when it is not already present; otherwise no update is emitted. -/
def addCannedComment (a : Assessment) (text : String) : Assessment :=
  if text ∈ a.cannedComments then a
  else { a with cannedComments := a.cannedComments ++ [text] }

/-! ## PDF splitter (src/services/pdfSplittingService.ts)

A loaded PDF document is modelled as the list of its pages; `getPageCount()`
is the list length. Page numbers are `Int` (TypeScript numbers entered by the
user or by AI detection), 1-indexed. -/

structure SplitRange where
  studentName : String
  startPage : Int
  endPage : Int
deriving DecidableEq, Repr

/-- The index sequence of `for (let i = startPage; i <= endPage; i++)`. -/
def intRange (a b : Int) : List Int :=
  (List.range (b + 1 - a).toNat).map (fun (k : Nat) => a + (k : Int))

/-- The 0-indexed page indices collected for one range
(pdfSplittingService.ts lines 24-30): every loop index `i` with
`i - 1 < pageCount` contributes `i - 1`. -/
def pageIndicesFor (pageCount : Nat) (r : SplitRange) : List Int :=
  ((intRange r.startPage r.endPage).filter (fun i => i - 1 < (pageCount : Int))).map
    (fun i => i - 1)

/-- pdf-lib's `copyPages`: fetch each index from the source document; an index
outside the document makes the library throw, modelled as `none`. -/
def copyPages (src : List α) (idxs : List Int) : Option (List α) :=
  idxs.mapM (fun i => if 0 ≤ i then src[i.toNat]? else none)

/-- `splitPdfByRanges` (pdfSplittingService.ts lines 9-49): one output document
per range with at least one collected page index, in input order; a library
throw rejects the whole call (`none`). -/
def splitPdfByRanges (src : List α) : List SplitRange → Option (List (String × List α))
  | [] => some []
  | r :: rs =>
    let idxs := pageIndicesFor src.length r
    if idxs.length > 0 then
      match copyPages src idxs with
      | none => none
      | some pages =>
        match splitPdfByRanges src rs with
        | none => none
        | some rest => some ((r.studentName, pages) :: rest)
    else splitPdfByRanges src rs

/-! ## AI gateway (src/services/geminiService.ts)

Each operation performs one network round trip. The awaited outcome is an
explicit argument `transport`: a thrown transport error, or a response whose
`.text` may be absent (`none`) or empty. `JSON.parse` plus the typing of its
result is the explicit argument `parse`; a throw is `Except.error`. The
request payload (document bytes, prompt text, response schema, and for grading
the serialised rubric context) does not influence the control flow modelled
here; it is absorbed into `transport`. -/

/-- The shared control flow of all four gateway operations: fail on a missing
credential, re-raise a transport error, return `[]` on a falsy response text,
otherwise parse (re-raising a parse throw). -/
def geminiCall (apiKey : String) (transport : Except String (Option String))
    (parse : String → Except String (List α)) : Except String (List α) :=
  if apiKey = "" then Except.error "API Key not found"
  else
    match transport with
    | Except.error e => Except.error e
    | Except.ok none => Except.ok []
    | Except.ok (some text) =>
      if text = "" then Except.ok []
      else parse text

/-- A rubric item as parsed from the model response, before the caller assigns
an id (geminiService.ts lines 14-27). -/
structure RawRubricItem where
  question : String
  maxPoints : ℚ
  criteria : String
  type : QuestionType
  correctAnswer : Option String
deriving DecidableEq, Repr

/-- `data.map((item, index) => ({ id: q-<Date.now()>-<index>, ...item }))`
(geminiService.ts lines 57-60). -/
def assignRubricIds (now : Int) (data : List RawRubricItem) : List RubricItem :=
  data.enum.map (fun p =>
    { id := "q-" ++ toString now ++ "-" ++ toString p.1
      question := p.2.question
      maxPoints := p.2.maxPoints
      criteria := p.2.criteria
      type := p.2.type
      correctAnswer := p.2.correctAnswer })

/-- `generateRubricFromPDF` (geminiService.ts lines 9-66); `now` models
`Date.now()`. -/
def generateRubricFromPDF (apiKey : String) (transport : Except String (Option String))
    (parse : String → Except String (List RawRubricItem)) (now : Int) :
    Except String (List RubricItem) :=
  geminiCall apiKey transport (fun text => (parse text).map (assignRubricIds now))

/-- `parseStudentRoster` (geminiService.ts lines 68-112). -/
def parseStudentRoster (apiKey : String) (transport : Except String (Option String))
    (parse : String → Except String (List String)) : Except String (List String) :=
  geminiCall apiKey transport parse

/-- The `StudentRange` record of geminiService.ts (lines 114-118), structurally
identical to `SplitRange`. -/
abbrev StudentRange := SplitRange

/-- `identifyStudentRanges` (geminiService.ts lines 120-179). -/
def identifyStudentRanges (apiKey : String) (transport : Except String (Option String))
    (parse : String → Except String (List StudentRange)) : Except String (List StudentRange) :=
  geminiCall apiKey transport parse

/-- `gradeStudentSubmission` (geminiService.ts lines 181-260). The `rubric`
argument is serialised into the request payload only (lines 191-198), which is
absorbed into `transport`. -/
def gradeStudentSubmission (apiKey : String) (rubric : List RubricItem)
    (transport : Except String (Option String))
    (parse : String → Except String (List AiGradingResult)) :
    Except String (List AiGradingResult) :=
  let _rubricContext := rubric.map (fun r =>
    (r.id, r.question, r.maxPoints, r.type, r.correctAnswer, r.criteria))
  geminiCall apiKey transport parse

/-- Reachable-state invariant of the assessment store: a pending student has an
empty grades mapping. Students are created with `grades: {}` and
`status: 'PENDING'` (StudentSetup.tsx lines 44-53, 74-83, 131-140), and every
grade-touching operation marks the touched student graded. -/
def GradesInv (a : Assessment) : Prop :=
  ∀ st ∈ a.students, st.status = SubmissionStatus.PENDING → st.grades = []

/-! ## Concrete fixtures

Small concrete values used to evaluate the operations on explicit inputs. -/

/-- An MCQ rubric item worth 5 points with correct answer "B". -/
def sampleRubricItem : RubricItem :=
  { id := "q1", question := "Q1", maxPoints := 5, criteria := "", type := QuestionType.MCQ
    correctAnswer := some "B" }

/-- A freshly imported student: empty grades, pending. -/
def sampleStudent1 : StudentSubmission :=
  { id := "s1", studentName := "Ada", fileData := some "filebytes", fileType := "application/pdf"
    fileName := "ada.pdf", grades := [], status := SubmissionStatus.PENDING, totalScore := 0 }

/-- A second freshly imported student without an uploaded file. -/
def sampleStudent2 : StudentSubmission :=
  { id := "s2", studentName := "Ben", fileData := none, fileType := ""
    fileName := "", grades := [], status := SubmissionStatus.PENDING, totalScore := 0 }

/-- An assessment with one MCQ rubric item and two pending students. -/
def sampleA : Assessment :=
  { id := "a1", title := "Quiz", description := "", status := AssessmentStatus.GRADING
    rubric := [sampleRubricItem], students := [sampleStudent1, sampleStudent2]
    cannedComments := ["Great work!"], created := 0 }

/-- A student who already has a detected answer "b" recorded for q1. -/
def sampleGradedStudent : StudentSubmission :=
  { id := "s1", studentName := "Ada", fileData := some "filebytes", fileType := "application/pdf"
    fileName := "ada.pdf"
    grades := [("q1", { score := 0, comment := "", studentAnswer := some "b", isAiSuggested := none })]
    status := SubmissionStatus.GRADED, totalScore := 0 }

/-- An assessment holding `sampleGradedStudent`. -/
def sampleB : Assessment :=
  { id := "a1", title := "Quiz", description := "", status := AssessmentStatus.GRADING
    rubric := [sampleRubricItem], students := [sampleGradedStudent]
    cannedComments := [], created := 0 }

/-- Input exhibiting the `runAiGrading` total-score mismatch: the student
already holds a manually entered grade for "q1" worth 5. -/
def c3Student : StudentSubmission :=
  { id := "s1", studentName := "Ada", fileData := some "filebytes", fileType := "application/pdf"
    fileName := "ada.pdf"
    grades := [("q1", { score := 5, comment := "", studentAnswer := none, isAiSuggested := none })]
    status := SubmissionStatus.GRADED, totalScore := 5 }

/-- Assessment holding `c3Student`; the rubric does not matter for the total. -/
def c3Assessment : Assessment :=
  { id := "a1", title := "Quiz", description := "", status := AssessmentStatus.GRADING
    rubric := [], students := [c3Student], cannedComments := [], created := 0 }

/-- An AI result for a question the student has no manual grade for. -/
def c3Result : AiGradingResult :=
  { questionId := "q2", score := 3, comment := "", studentAnswer := none }

/-! ## Association-list lemmas for the JS record model -/

lemma recordGet_recordSet_self (m : List (String × QuestionGrade)) (k : String)
    (v : QuestionGrade) :
    recordGet (recordSet m k v) k = some v := by
  induction m with
  | nil => simp [recordGet, recordSet]
  | cons p ps ih =>
    by_cases h : p.1 = k
    · simp [recordGet, recordSet, h]
    · simp [recordGet, recordSet, h, ih]

lemma recordGet_recordSet_ne (m : List (String × QuestionGrade)) (k k' : String)
    (v : QuestionGrade) (h : k ≠ k') :
    recordGet (recordSet m k' v) k = recordGet m k := by
  have hk : ¬ k' = k := Ne.symm h
  induction m with
  | nil => simp [recordGet, recordSet, hk]
  | cons p ps ih =>
    by_cases h1 : p.1 = k'
    · have h2 : ¬ p.1 = k := by rw [h1]; exact hk
      simp [recordGet, recordSet, h1, h2, hk]
    · simp [recordGet, recordSet, h1, ih]

lemma find?_students_map (l : List StudentSubmission) (sid : String) (u : StudentSubmission)
    (hfind : (l.find? (fun s => s.id = sid)).isSome = true) (hu : u.id = sid) :
    (l.map (fun s => if s.id = sid then u else s)).find? (fun s => s.id = sid) = some u := by
  induction l with
  | nil => simp at hfind
  | cons hd tl ih =>
    by_cases h : hd.id = sid
    · simp [List.find?_cons, h, hu, -List.find?_map]
    · rw [List.find?_cons] at hfind
      simp only [h, decide_False, Bool.false_eq_true] at hfind
      simp [List.find?_cons, h, -List.find?_map]
      exact ih hfind

lemma find?_rubric_update (l : List RubricItem) (qid : String) (f : RubricItem → RubricItem)
    (hf : ∀ r, (f r).id = r.id) :
    (l.map (fun r => if r.id = qid then f r else r)).find? (fun r => r.id = qid)
      = (l.find? (fun r => r.id = qid)).map f := by
  induction l with
  | nil => simp
  | cons hd tl ih =>
    by_cases h : hd.id = qid
    · simp [List.find?_cons, h, hf, -List.find?_map]
    · simp [List.find?_cons, h, ih, -List.find?_map]

lemma aiFold_get_of_not_mem (rubric : List RubricItem) (results : List AiGradingResult)
    (acc : List (String × QuestionGrade) × ℚ) (k : String)
    (h : ∀ res ∈ results, res.questionId ≠ k) :
    recordGet (results.foldl (aiStep rubric) acc).1 k = recordGet acc.1 k := by
  induction results generalizing acc with
  | nil => rfl
  | cons r rs ih =>
    rw [List.foldl_cons, ih _ (fun res hres => h res (List.mem_cons_of_mem _ hres))]
    exact recordGet_recordSet_ne _ _ _ _ (Ne.symm (h r (List.mem_cons_self _ _)))

lemma aiFold_get_of_mem (rubric : List RubricItem) (results : List AiGradingResult)
    (acc : List (String × QuestionGrade) × ℚ) (res : AiGradingResult)
    (hmem : res ∈ results) (hnd : (results.map (fun r => r.questionId)).Nodup) :
    recordGet (results.foldl (aiStep rubric) acc).1 res.questionId
      = some { score := aiFinalScore rubric res
               comment := res.comment
               studentAnswer := res.studentAnswer
               isAiSuggested := some true } := by
  induction results generalizing acc with
  | nil => cases hmem
  | cons r rs ih =>
    rw [List.map_cons, List.nodup_cons] at hnd
    rcases List.mem_cons.mp hmem with heq | hmem2
    · subst heq
      rw [List.foldl_cons,
        aiFold_get_of_not_mem _ _ _ _
          (fun res2 h2 e => hnd.1 (by rw [← e]; exact List.mem_map_of_mem _ h2))]
      exact recordGet_recordSet_self _ _ _
    · rw [List.foldl_cons]
      exact ih _ hmem2 hnd.2

/-! ## Equation lemmas for the grading operations -/

lemma handleGradeChange_none (a : Assessment) (sid qid : String) (p : GradePatch)
    (hf : a.students.find? (fun s => s.id = sid) = none) :
    handleGradeChange a sid qid p = a := by
  simp only [handleGradeChange, hf]

lemma handleGradeChange_some (a : Assessment) (sid qid : String) (p : GradePatch)
    (st : StudentSubmission) (hf : a.students.find? (fun s => s.id = sid) = some st) :
    handleGradeChange a sid qid p
      = { a with students := a.students.map (fun s =>
          if s.id = sid then gradeUpdatedStudent a.rubric qid p st else s) } := by
  simp only [handleGradeChange, hf]

lemma runAiGrading_some (a : Assessment) (sid : String) (results : List AiGradingResult)
    (st : StudentSubmission) (hf : a.students.find? (fun s => s.id = sid) = some st)
    (hfile : truthy st.fileData = true) :
    runAiGrading a sid results
      = { a with students := a.students.map (fun s =>
          if s.id = sid then aiUpdatedStudent a.rubric results st else s) } := by
  simp only [runAiGrading, hf, hfile, if_true]

lemma runAiGrading_cases (a : Assessment) (sid : String) (results : List AiGradingResult) :
    runAiGrading a sid results = a
    ∨ ∃ st, a.students.find? (fun s => s.id = sid) = some st
        ∧ truthy st.fileData = true
        ∧ runAiGrading a sid results
            = { a with students := a.students.map (fun s =>
                if s.id = sid then aiUpdatedStudent a.rubric results st else s) } := by
  cases hf : a.students.find? (fun s => s.id = sid) with
  | none => exact Or.inl (by simp only [runAiGrading, hf])
  | some st =>
    by_cases hfile : truthy st.fileData = true
    · exact Or.inr ⟨st, rfl, hfile, runAiGrading_some a sid results st hf hfile⟩
    · refine Or.inl ?_
      simp only [runAiGrading, hf]
      rw [if_neg hfile]

lemma handleKeyChange_students_eq (a : Assessment) (sid qid newKey : String)
    (st : StudentSubmission) (item : RubricItem) (g : QuestionGrade) (ans : String)
    (hf : a.students.find? (fun s => s.id = sid) = some st)
    (hr : (a.rubric.map (fun r =>
        if r.id = qid then { r with correctAnswer := some newKey.toUpper } else r)).find?
        (fun r => r.id = qid) = some item)
    (hg : recordGet st.grades qid = some g)
    (hans : g.studentAnswer = some ans) (hne : ans ≠ "") :
    (handleKeyChange a sid qid newKey).students
      = a.students.map (fun s =>
          if s.id = st.id then keyUpdatedStudent item qid newKey ans g st else s) := by
  simp only [handleKeyChange, hf, hr, hg, hans]
  rw [if_pos hne]

lemma handleKeyChange_students_cases (a : Assessment) (sid qid newKey : String) :
    (handleKeyChange a sid qid newKey).students = a.students
    ∨ ∃ st item g ans, a.students.find? (fun s => s.id = sid) = some st
        ∧ recordGet st.grades qid = some g
        ∧ g.studentAnswer = some ans
        ∧ ans ≠ ""
        ∧ (handleKeyChange a sid qid newKey).students
            = a.students.map (fun s =>
                if s.id = st.id then keyUpdatedStudent item qid newKey ans g st else s) := by
  cases hf : a.students.find? (fun s => s.id = sid) with
  | none => exact Or.inl (by simp only [handleKeyChange, hf])
  | some st =>
    cases hr : (a.rubric.map (fun r =>
        if r.id = qid then { r with correctAnswer := some newKey.toUpper } else r)).find?
        (fun r => r.id = qid) with
    | none => exact Or.inl (by simp only [handleKeyChange, hf, hr])
    | some item =>
      cases hg : recordGet st.grades qid with
      | none => exact Or.inl (by simp only [handleKeyChange, hf, hr, hg])
      | some g =>
        cases hans : g.studentAnswer with
        | none => exact Or.inl (by simp only [handleKeyChange, hf, hr, hg, hans])
        | some ans =>
          by_cases hne : ans ≠ ""
          · exact Or.inr ⟨st, item, g, ans, rfl, hg, hans, hne,
              handleKeyChange_students_eq a sid qid newKey st item g ans hf hr hg hans hne⟩
          · refine Or.inl ?_
            simp only [handleKeyChange, hf, hr, hg, hans]
            rw [if_neg hne]

/-! ## Claim theorems -/

/-- C10: `addCannedComment` appends a comment string to the assessment's
cannedComments list only if it is not already present, otherwise leaves the
assessment unchanged; starting from a duplicate-free list it never introduces
a duplicate. -/
theorem addCannedComment_no_duplicates (a : Assessment) (text : String) :
    (text ∈ a.cannedComments → addCannedComment a text = a)
    ∧ (text ∉ a.cannedComments →
        (addCannedComment a text).cannedComments = a.cannedComments ++ [text])
    ∧ (a.cannedComments.Nodup → (addCannedComment a text).cannedComments.Nodup) := by
  refine ⟨fun h => ?_, fun h => ?_, fun h => ?_⟩
  · simp [addCannedComment, h]
  · simp [addCannedComment, h]
  · by_cases hmem : text ∈ a.cannedComments
    · simpa [addCannedComment, hmem] using h
    · simp [addCannedComment, hmem, List.nodup_append, h]

/-- Witness for C10 at a concrete assessment: re-adding the existing comment
is a no-op while a fresh comment is appended. -/
theorem addCannedComment_no_duplicates_witness :
    addCannedComment sampleA "Great work!" = sampleA
    ∧ (addCannedComment sampleA "Nice proof").cannedComments
        = sampleA.cannedComments ++ ["Nice proof"] :=
  ⟨(addCannedComment_no_duplicates sampleA "Great work!").1 (by decide),
   (addCannedComment_no_duplicates sampleA "Nice proof").2.1 (by decide)⟩

/-- C9: `handleGradeChange` replaces only the selected student's entry in the
students list; every other student and every other Assessment field is
unchanged in the emitted assessment. -/
theorem handleGradeChange_frame (a : Assessment) (sid qid : String) (p : GradePatch) :
    (handleGradeChange a sid qid p).id = a.id
    ∧ (handleGradeChange a sid qid p).title = a.title
    ∧ (handleGradeChange a sid qid p).description = a.description
    ∧ (handleGradeChange a sid qid p).status = a.status
    ∧ (handleGradeChange a sid qid p).rubric = a.rubric
    ∧ (handleGradeChange a sid qid p).cannedComments = a.cannedComments
    ∧ (handleGradeChange a sid qid p).created = a.created
    ∧ (handleGradeChange a sid qid p).students.length = a.students.length
    ∧ (∀ (i : ℕ) (s s2 : StudentSubmission), a.students[i]? = some s →
        (handleGradeChange a sid qid p).students[i]? = some s2 → s.id ≠ sid → s2 = s) := by
  cases hf : a.students.find? (fun s => s.id = sid) with
  | none =>
    rw [handleGradeChange_none a sid qid p hf]
    refine ⟨rfl, rfl, rfl, rfl, rfl, rfl, rfl, rfl, ?_⟩
    intro i s s2 hs hs2 _
    rw [hs] at hs2
    injection hs2 with h2
    exact h2.symm
  | some st =>
    rw [handleGradeChange_some a sid qid p st hf]
    refine ⟨rfl, rfl, rfl, rfl, rfl, rfl, rfl, by simp, ?_⟩
    intro i s s2 hs hs2 hne
    simp only [List.getElem?_map, hs, Option.map_some'] at hs2
    injection hs2 with h2
    rw [← h2, if_neg hne]

/-- Witness for C9: editing s1's grade leaves the other student s2 and the
rubric untouched. -/
theorem handleGradeChange_frame_witness :
    (handleGradeChange sampleA "s1" "q1" GradePatch.empty).rubric = sampleA.rubric
    ∧ sampleStudent2 = sampleStudent2 :=
  ⟨(handleGradeChange_frame sampleA "s1" "q1" GradePatch.empty).2.2.2.2.1,
   (handleGradeChange_frame sampleA "s1" "q1" GradePatch.empty).2.2.2.2.2.2.2.2
     1 sampleStudent2 sampleStudent2 (by rfl) (by rfl) (by decide)⟩

/-- C8: when the selected student has no grade entry for the edited question,
`handleGradeChange` creates one by merging the (possibly MCQ-adjusted) update
into the default grade; any field the update does not supply takes the default
value. -/
theorem handleGradeChange_missing_entry (a : Assessment) (sid qid : String) (p : GradePatch)
    (st : StudentSubmission)
    (hst : a.students.find? (fun s => s.id = sid) = some st)
    (hmiss : recordGet st.grades qid = none) :
    ∃ st2, (handleGradeChange a sid qid p).students.find? (fun s => s.id = sid) = some st2
      ∧ recordGet st2.grades qid = some (applyPatch gradeDefault (effectivePatch a.rubric qid p))
      ∧ ((effectivePatch a.rubric qid p).score = none →
          (applyPatch gradeDefault (effectivePatch a.rubric qid p)).score = 0)
      ∧ ((effectivePatch a.rubric qid p).comment = none →
          (applyPatch gradeDefault (effectivePatch a.rubric qid p)).comment = "")
      ∧ ((effectivePatch a.rubric qid p).studentAnswer = none →
          (applyPatch gradeDefault (effectivePatch a.rubric qid p)).studentAnswer = none) := by
  have hid : st.id = sid := by simpa using List.find?_some hst
  refine ⟨gradeUpdatedStudent a.rubric qid p st, ?_, ?_, fun h => ?_, fun h => ?_, fun h => ?_⟩
  · rw [handleGradeChange_some a sid qid p st hst]
    exact find?_students_map _ _ _ (by rw [hst]; rfl) hid
  · simp only [gradeUpdatedStudent, hmiss, Option.getD_none]
    exact recordGet_recordSet_self _ _ _
  · simp [applyPatch, h, gradeDefault]
  · simp [applyPatch, h, gradeDefault]
  · simp [applyPatch, h, gradeDefault]

/-- Witness for C8: a comment edit for a question without an entry creates the
entry with default score 0. -/
theorem handleGradeChange_missing_entry_witness :
    ∃ st2, (handleGradeChange sampleA "s1" "q1"
          { score := none, comment := some "Good", studentAnswer := none, isAiSuggested := none
            : GradePatch }).students.find? (fun s => s.id = "s1") = some st2
      ∧ recordGet st2.grades "q1"
          = some (applyPatch gradeDefault (effectivePatch sampleA.rubric "q1"
              { score := none, comment := some "Good", studentAnswer := none,
                isAiSuggested := none }))
      ∧ ((effectivePatch sampleA.rubric "q1"
            { score := none, comment := some "Good", studentAnswer := none,
              isAiSuggested := none }).score = none →
          (applyPatch gradeDefault (effectivePatch sampleA.rubric "q1"
              { score := none, comment := some "Good", studentAnswer := none,
                isAiSuggested := none })).score = 0)
      ∧ ((effectivePatch sampleA.rubric "q1"
            { score := none, comment := some "Good", studentAnswer := none,
              isAiSuggested := none }).comment = none →
          (applyPatch gradeDefault (effectivePatch sampleA.rubric "q1"
              { score := none, comment := some "Good", studentAnswer := none,
                isAiSuggested := none })).comment = "")
      ∧ ((effectivePatch sampleA.rubric "q1"
            { score := none, comment := some "Good", studentAnswer := none,
              isAiSuggested := none }).studentAnswer = none →
          (applyPatch gradeDefault (effectivePatch sampleA.rubric "q1"
              { score := none, comment := some "Good", studentAnswer := none,
                isAiSuggested := none })).studentAnswer = none) :=
  handleGradeChange_missing_entry sampleA "s1" "q1" _ sampleStudent1 (by rfl) (by rfl)

/-- C3 (failing case): applying an AI grading result for q2 to a student who
already holds a manual grade for q1 stores totalScore 3 while the grades
mapping sums to 8 — the totalScore invariant is violated by `runAiGrading`,
which sums only the AI result scores instead of all current grades. -/
theorem runAiGrading_totalScore_mismatch :
    ((runAiGrading c3Assessment "s1" [c3Result]).students.map
        (fun s => (s.totalScore, sumScores s.grades))) = [((3 : ℚ), (8 : ℚ))]
    ∧ (3 : ℚ) ≠ (8 : ℚ) := by
  constructor
  · have h1 : ("filebytes" : String) ≠ "" := by decide
    have h2 : ("q1" : String) ≠ "q2" := by decide
    norm_num [runAiGrading, c3Assessment, c3Student, c3Result, aiUpdatedStudent, aiStep,
      aiFinalScore, recordSet, sumScores, truthy, List.find?, h1, h2]
  · norm_num

/-- C7: each of the four AI gateway operations throws immediately on an empty
credential, returns an empty array when the model's response text is absent or
empty, and re-raises a transport or parse error to the caller (the model
performs a single call, so there is no retry). -/
theorem gemini_error_handling :
    (∀ (tr : Except String (Option String)) (parse : String → Except String (List RawRubricItem))
        (now : Int) (apiKey t e : String),
        (apiKey = "" → generateRubricFromPDF apiKey tr parse now
          = Except.error "API Key not found")
        ∧ (apiKey ≠ "" → tr = Except.ok none → generateRubricFromPDF apiKey tr parse now
            = Except.ok [])
        ∧ (apiKey ≠ "" → tr = Except.ok (some "") → generateRubricFromPDF apiKey tr parse now
            = Except.ok [])
        ∧ (apiKey ≠ "" → tr = Except.error e → generateRubricFromPDF apiKey tr parse now
            = Except.error e)
        ∧ (apiKey ≠ "" → tr = Except.ok (some t) → t ≠ "" → parse t = Except.error e →
            generateRubricFromPDF apiKey tr parse now = Except.error e))
    ∧ (∀ (tr : Except String (Option String)) (parse : String → Except String (List String))
        (apiKey t e : String),
        (apiKey = "" → parseStudentRoster apiKey tr parse = Except.error "API Key not found")
        ∧ (apiKey ≠ "" → tr = Except.ok none → parseStudentRoster apiKey tr parse = Except.ok [])
        ∧ (apiKey ≠ "" → tr = Except.ok (some "") → parseStudentRoster apiKey tr parse
            = Except.ok [])
        ∧ (apiKey ≠ "" → tr = Except.error e → parseStudentRoster apiKey tr parse
            = Except.error e)
        ∧ (apiKey ≠ "" → tr = Except.ok (some t) → t ≠ "" → parse t = Except.error e →
            parseStudentRoster apiKey tr parse = Except.error e))
    ∧ (∀ (tr : Except String (Option String)) (parse : String → Except String (List StudentRange))
        (apiKey t e : String),
        (apiKey = "" → identifyStudentRanges apiKey tr parse = Except.error "API Key not found")
        ∧ (apiKey ≠ "" → tr = Except.ok none → identifyStudentRanges apiKey tr parse
            = Except.ok [])
        ∧ (apiKey ≠ "" → tr = Except.ok (some "") → identifyStudentRanges apiKey tr parse
            = Except.ok [])
        ∧ (apiKey ≠ "" → tr = Except.error e → identifyStudentRanges apiKey tr parse
            = Except.error e)
        ∧ (apiKey ≠ "" → tr = Except.ok (some t) → t ≠ "" → parse t = Except.error e →
            identifyStudentRanges apiKey tr parse = Except.error e))
    ∧ (∀ (tr : Except String (Option String))
        (parse : String → Except String (List AiGradingResult))
        (rubric : List RubricItem) (apiKey t e : String),
        (apiKey = "" → gradeStudentSubmission apiKey rubric tr parse
          = Except.error "API Key not found")
        ∧ (apiKey ≠ "" → tr = Except.ok none → gradeStudentSubmission apiKey rubric tr parse
            = Except.ok [])
        ∧ (apiKey ≠ "" → tr = Except.ok (some "") → gradeStudentSubmission apiKey rubric tr parse
            = Except.ok [])
        ∧ (apiKey ≠ "" → tr = Except.error e → gradeStudentSubmission apiKey rubric tr parse
            = Except.error e)
        ∧ (apiKey ≠ "" → tr = Except.ok (some t) → t ≠ "" → parse t = Except.error e →
            gradeStudentSubmission apiKey rubric tr parse = Except.error e)) := by
  refine ⟨fun tr parse now apiKey t e => ?_, fun tr parse apiKey t e => ?_,
    fun tr parse apiKey t e => ?_, fun tr parse rubric apiKey t e => ?_⟩ <;>
  refine ⟨fun h1 => ?_, fun h1 h2 => ?_, fun h1 h2 => ?_, fun h1 h2 => ?_,
    fun h1 h2 h3 h4 => ?_⟩ <;>
  subst_vars <;>
  simp [generateRubricFromPDF, parseStudentRoster, identifyStudentRanges,
    gradeStudentSubmission, geminiCall, Except.map, *]

/-- Witness for C7: one concrete instance of each failure mode across the four
operations. -/
theorem gemini_error_handling_witness :
    generateRubricFromPDF "" (Except.ok none) (fun _ => Except.ok []) 0
      = Except.error "API Key not found"
    ∧ parseStudentRoster "key" (Except.ok (some "")) (fun _ => Except.ok []) = Except.ok []
    ∧ identifyStudentRanges "key" (Except.error "network down") (fun _ => Except.ok [])
        = Except.error "network down"
    ∧ gradeStudentSubmission "key" [] (Except.ok (some "not json"))
        (fun _ => Except.error "SyntaxError") = Except.error "SyntaxError" :=
  ⟨(gemini_error_handling.1 (Except.ok none) (fun _ => Except.ok []) 0 "" "" "").1 rfl,
   (gemini_error_handling.2.1 (Except.ok (some "")) (fun _ => Except.ok []) "key" "" "").2.2.1
     (by decide) rfl,
   (gemini_error_handling.2.2.1 (Except.error "network down") (fun _ => Except.ok [])
     "key" "" "network down").2.2.2.1 (by decide) rfl,
   (gemini_error_handling.2.2.2 (Except.ok (some "not json"))
     (fun _ => Except.error "SyntaxError") [] "key" "not json" "SyntaxError").2.2.2.2
     (by decide) rfl (by decide) rfl⟩

/-- C4: for an MCQ rubric item with non-empty correct answer and a non-empty
student answer, both the student-answer edit path (`handleGradeChange`) and the
answer-key edit path (`handleKeyChange`) set the item's score to maxPoints
when the trimmed, case-insensitive letters match and to 0 otherwise. -/
theorem mcq_score_recomputation :
    (∀ (a : Assessment) (sid qid : String) (p : GradePatch) (st : StudentSubmission)
        (item : RubricItem) (ca ans : String),
        a.students.find? (fun s => s.id = sid) = some st →
        a.rubric.find? (fun r => r.id = qid) = some item →
        item.type = QuestionType.MCQ → item.correctAnswer = some ca → ca ≠ "" →
        p.studentAnswer = some ans → ans ≠ "" →
        ∃ st2 g,
          (handleGradeChange a sid qid p).students.find? (fun s => s.id = sid) = some st2
          ∧ recordGet st2.grades qid = some g
          ∧ g.score = (if ans.trim.toUpper = ca.trim.toUpper then item.maxPoints else 0))
    ∧ (∀ (a : Assessment) (sid qid newKey : String) (st : StudentSubmission)
        (item : RubricItem) (g0 : QuestionGrade) (ans : String),
        a.students.find? (fun s => s.id = sid) = some st →
        a.rubric.find? (fun r => r.id = qid) = some item →
        item.type = QuestionType.MCQ → newKey ≠ "" →
        recordGet st.grades qid = some g0 → g0.studentAnswer = some ans → ans ≠ "" →
        ∃ st2 g,
          (handleKeyChange a sid qid newKey).students.find? (fun s => s.id = sid) = some st2
          ∧ recordGet st2.grades qid = some g
          ∧ g.score = (if ans.trim.toUpper = newKey.trim.toUpper then item.maxPoints else 0)) := by
  constructor
  · intro a sid qid p st item ca ans hfst hrub hmcq hca hcane hans hansne
    have hid : st.id = sid := by simpa using List.find?_some hfst
    have hep : effectivePatch a.rubric qid p
        = { p with
            score := some (if ans.trim.toUpper = ca.trim.toUpper then item.maxPoints else 0)
            studentAnswer := some ans.trim.toUpper } := by
      simp only [effectivePatch, hrub, hca, hans]
      rw [if_pos ⟨hmcq, hcane⟩]
    refine ⟨gradeUpdatedStudent a.rubric qid p st,
      applyPatch ((recordGet st.grades qid).getD gradeDefault) (effectivePatch a.rubric qid p),
      ?_, ?_, ?_⟩
    · rw [handleGradeChange_some a sid qid p st hfst]
      exact find?_students_map _ _ _ (by rw [hfst]; rfl) hid
    · simp only [gradeUpdatedStudent]
      exact recordGet_recordSet_self _ _ _
    · rw [hep]
      simp [applyPatch]
  · intro a sid qid newKey st item g0 ans hfst hrub hmcq hkeyne hget hans hansne
    have hid : st.id = sid := by simpa using List.find?_some hfst
    have hru : (a.rubric.map (fun r =>
        if r.id = qid then { r with correctAnswer := some newKey.toUpper } else r)).find?
        (fun r => r.id = qid) = some { item with correctAnswer := some newKey.toUpper } := by
      rw [find?_rubric_update a.rubric qid
        (fun r => { r with correctAnswer := some newKey.toUpper }) (fun r => rfl),
        hrub, Option.map_some']
    have heq := handleKeyChange_students_eq a sid qid newKey st
      { item with correctAnswer := some newKey.toUpper } g0 ans hfst hru hget hans hansne
    refine ⟨keyUpdatedStudent { item with correctAnswer := some newKey.toUpper } qid newKey
        ans g0 st,
      { g0 with score := if ans.trim.toUpper = newKey.trim.toUpper then item.maxPoints else 0 },
      ?_, ?_, rfl⟩
    · rw [heq, hid]
      exact find?_students_map _ _ _ (by rw [hfst]; rfl) (by simp [keyUpdatedStudent, hid])
    · simp only [keyUpdatedStudent]
      exact recordGet_recordSet_self _ _ _

/-- Witness for C4: answering "b" against key "B" on a 5-point MCQ yields
score 5 via the answer edit path; changing the key to "a" against stored
answer "b" yields score 0 via the key edit path. -/
theorem mcq_score_recomputation_witness :
    (∃ st2 g,
      (handleGradeChange sampleA "s1" "q1"
          { score := none, comment := none, studentAnswer := some "b", isAiSuggested := none
            : GradePatch }).students.find? (fun s => s.id = "s1") = some st2
      ∧ recordGet st2.grades "q1" = some g
      ∧ g.score = (if ("b" : String).trim.toUpper = ("B" : String).trim.toUpper
          then sampleRubricItem.maxPoints else 0))
    ∧ (∃ st2 g,
      (handleKeyChange sampleB "s1" "q1" "a").students.find? (fun s => s.id = "s1") = some st2
      ∧ recordGet st2.grades "q1" = some g
      ∧ g.score = (if ("b" : String).trim.toUpper = ("a" : String).trim.toUpper
          then sampleRubricItem.maxPoints else 0)) :=
  ⟨mcq_score_recomputation.1 sampleA "s1" "q1" _ sampleStudent1 sampleRubricItem "B" "b"
      (by rfl) (by rfl) (by rfl) (by rfl) (by decide) (by rfl) (by decide),
   mcq_score_recomputation.2 sampleB "s1" "q1" "a" sampleGradedStudent sampleRubricItem
      { score := 0, comment := "", studentAnswer := some "b", isAiSuggested := none } "b"
      (by rfl) (by rfl) (by rfl) (by decide) (by rfl) (by rfl) (by decide)⟩

/-- C5: when AI grading results are applied, the stored score for an MCQ item
with non-empty correct answer and non-empty detected student answer is
re-derived from the trimmed case-insensitive comparison (maxPoints on match,
else 0) rather than taken from the AI suggestion; the entry is flagged
AI-suggested. The results address each rubric item once (one suggestion per
item), so their question ids are assumed distinct. -/
theorem aiGrading_mcq_rederivation (a : Assessment) (sid : String)
    (results : List AiGradingResult) (st : StudentSubmission) (res : AiGradingResult)
    (item : RubricItem) (ca sa : String)
    (hfst : a.students.find? (fun s => s.id = sid) = some st)
    (hfile : truthy st.fileData = true)
    (hnd : (results.map (fun r => r.questionId)).Nodup)
    (hmem : res ∈ results)
    (hrub : a.rubric.find? (fun r => r.id = res.questionId) = some item)
    (hmcq : item.type = QuestionType.MCQ)
    (hca : item.correctAnswer = some ca) (hcane : ca ≠ "")
    (hsa : res.studentAnswer = some sa) (hsane : sa ≠ "") :
    ∃ st2 g, (runAiGrading a sid results).students.find? (fun s => s.id = sid) = some st2
      ∧ recordGet st2.grades res.questionId = some g
      ∧ g.score = (if ca.trim.toUpper = sa.trim.toUpper then item.maxPoints else 0)
      ∧ g.isAiSuggested = some true := by
  have hid : st.id = sid := by simpa using List.find?_some hfst
  have hscore : aiFinalScore a.rubric res
      = (if ca.trim.toUpper = sa.trim.toUpper then item.maxPoints else 0) := by
    simp only [aiFinalScore, hrub, hca, hsa]
    rw [if_pos ⟨hmcq, hcane, hsane⟩]
  refine ⟨aiUpdatedStudent a.rubric results st,
    { score := aiFinalScore a.rubric res, comment := res.comment,
      studentAnswer := res.studentAnswer, isAiSuggested := some true }, ?_, ?_, ?_, rfl⟩
  · rw [runAiGrading_some a sid results st hfst hfile]
    exact find?_students_map _ _ _ (by rw [hfst]; rfl) (by simp [aiUpdatedStudent, hid])
  · simp only [aiUpdatedStudent]
    exact aiFold_get_of_mem _ _ _ _ hmem hnd
  · exact hscore

/-- Witness for C5: an AI result suggesting score 1 with detected answer "b"
against key "B" on the 5-point MCQ is stored with the re-derived score 5. -/
theorem aiGrading_mcq_rederivation_witness :
    ∃ st2 g,
      (runAiGrading sampleB "s1"
          [{ questionId := "q1", score := 1, comment := "ai", studentAnswer := some "b" }]).students.find?
          (fun s => s.id = "s1") = some st2
      ∧ recordGet st2.grades "q1" = some g
      ∧ g.score = (if ("B" : String).trim.toUpper = ("b" : String).trim.toUpper
          then sampleRubricItem.maxPoints else 0)
      ∧ g.isAiSuggested = some true :=
  aiGrading_mcq_rederivation sampleB "s1"
    [{ questionId := "q1", score := 1, comment := "ai", studentAnswer := some "b" }]
    sampleGradedStudent
    { questionId := "q1", score := 1, comment := "ai", studentAnswer := some "b" }
    sampleRubricItem "B" "b"
    (by rfl) (by rfl) (by decide) (by decide) (by rfl) (by rfl) (by rfl) (by decide)
    (by rfl) (by decide)

/-- C6: student status takes only the values PENDING and GRADED; the grade
mutations `handleGradeChange` and `runAiGrading` mark the touched student
GRADED (and in reachable states — where a pending student has empty grades —
`handleKeyChange` only ever touches the grades of already-graded students);
no operation transitions any student from GRADED back to PENDING; and all
three operations preserve the reachable-state invariant. -/
theorem status_transitions :
    (∀ st : StudentSubmission,
        st.status = SubmissionStatus.PENDING ∨ st.status = SubmissionStatus.GRADED)
    ∧ (∀ (a : Assessment) (sid qid : String) (p : GradePatch),
        (handleGradeChange a sid qid p).students.length = a.students.length
        ∧ ∀ (i : ℕ) (s s2 : StudentSubmission), a.students[i]? = some s →
            (handleGradeChange a sid qid p).students[i]? = some s2 →
            (s.status = SubmissionStatus.GRADED → s2.status = SubmissionStatus.GRADED)
            ∧ (s2.grades ≠ s.grades → s2.status = SubmissionStatus.GRADED))
    ∧ (∀ (a : Assessment) (sid : String) (results : List AiGradingResult),
        (runAiGrading a sid results).students.length = a.students.length
        ∧ ∀ (i : ℕ) (s s2 : StudentSubmission), a.students[i]? = some s →
            (runAiGrading a sid results).students[i]? = some s2 →
            (s.status = SubmissionStatus.GRADED → s2.status = SubmissionStatus.GRADED)
            ∧ (s2.grades ≠ s.grades → s2.status = SubmissionStatus.GRADED))
    ∧ (∀ (a : Assessment) (sid qid newKey : String), GradesInv a →
        (handleKeyChange a sid qid newKey).students.length = a.students.length
        ∧ ∀ (i : ℕ) (s s2 : StudentSubmission), a.students[i]? = some s →
            (handleKeyChange a sid qid newKey).students[i]? = some s2 →
            (s.status = SubmissionStatus.GRADED → s2.status = SubmissionStatus.GRADED)
            ∧ (s2.grades ≠ s.grades → s2.status = SubmissionStatus.GRADED))
    ∧ (∀ (a : Assessment) (sid qid : String) (p : GradePatch), GradesInv a →
        GradesInv (handleGradeChange a sid qid p))
    ∧ (∀ (a : Assessment) (sid qid newKey : String), GradesInv a →
        GradesInv (handleKeyChange a sid qid newKey))
    ∧ (∀ (a : Assessment) (sid : String) (results : List AiGradingResult), GradesInv a →
        GradesInv (runAiGrading a sid results)) := by
  refine ⟨?_, ?_, ?_, ?_, ?_, ?_, ?_⟩
  · intro st
    cases h : st.status with
    | PENDING => exact Or.inl rfl
    | GRADED => exact Or.inr rfl
  · intro a sid qid p
    cases hf : a.students.find? (fun s => s.id = sid) with
    | none =>
      rw [handleGradeChange_none a sid qid p hf]
      refine ⟨rfl, fun i s s2 hs hs2 => ?_⟩
      rw [hs] at hs2
      injection hs2 with h2
      subst h2
      exact ⟨fun h => h, fun hg => absurd rfl hg⟩
    | some st =>
      rw [handleGradeChange_some a sid qid p st hf]
      refine ⟨by simp, fun i s s2 hs hs2 => ?_⟩
      simp only [List.getElem?_map, hs, Option.map_some'] at hs2
      injection hs2 with h2
      by_cases hc : s.id = sid
      · rw [if_pos hc] at h2
        subst h2
        exact ⟨fun _ => by simp [gradeUpdatedStudent], fun _ => by simp [gradeUpdatedStudent]⟩
      · rw [if_neg hc] at h2
        subst h2
        exact ⟨fun h => h, fun hg => absurd rfl hg⟩
  · intro a sid results
    rcases runAiGrading_cases a sid results with heq | ⟨st, hf, hfile, heq⟩
    · rw [heq]
      refine ⟨rfl, fun i s s2 hs hs2 => ?_⟩
      rw [hs] at hs2
      injection hs2 with h2
      subst h2
      exact ⟨fun h => h, fun hg => absurd rfl hg⟩
    · rw [heq]
      refine ⟨by simp, fun i s s2 hs hs2 => ?_⟩
      simp only [List.getElem?_map, hs, Option.map_some'] at hs2
      injection hs2 with h2
      by_cases hc : s.id = sid
      · rw [if_pos hc] at h2
        subst h2
        exact ⟨fun _ => by simp [aiUpdatedStudent], fun _ => by simp [aiUpdatedStudent]⟩
      · rw [if_neg hc] at h2
        subst h2
        exact ⟨fun h => h, fun hg => absurd rfl hg⟩
  · intro a sid qid newKey hinv
    rcases handleKeyChange_students_cases a sid qid newKey with heq
      | ⟨st, item, g, ans, hf, hg, hans, hne, heq⟩
    · rw [heq]
      refine ⟨rfl, fun i s s2 hs hs2 => ?_⟩
      rw [hs] at hs2
      injection hs2 with h2
      subst h2
      exact ⟨fun h => h, fun hgr => absurd rfl hgr⟩
    · have hstat : st.status = SubmissionStatus.GRADED := by
        cases hcase : st.status with
        | GRADED => rfl
        | PENDING =>
          have hempty := hinv st (List.mem_of_find?_eq_some hf) hcase
          rw [hempty] at hg
          simp [recordGet] at hg
      rw [heq]
      refine ⟨by simp, fun i s s2 hs hs2 => ?_⟩
      simp only [List.getElem?_map, hs, Option.map_some'] at hs2
      injection hs2 with h2
      by_cases hc : s.id = st.id
      · rw [if_pos hc] at h2
        subst h2
        exact ⟨fun _ => by simp [keyUpdatedStudent, hstat],
          fun _ => by simp [keyUpdatedStudent, hstat]⟩
      · rw [if_neg hc] at h2
        subst h2
        exact ⟨fun h => h, fun hgr => absurd rfl hgr⟩
  · intro a sid qid p hinv st2 hmem2 hpend
    cases hf : a.students.find? (fun s => s.id = sid) with
    | none =>
      rw [handleGradeChange_none a sid qid p hf] at hmem2
      exact hinv st2 hmem2 hpend
    | some st =>
      rw [handleGradeChange_some a sid qid p st hf] at hmem2
      rcases List.mem_map.mp hmem2 with ⟨s, hs, hfs⟩
      by_cases hc : s.id = sid
      · rw [if_pos hc] at hfs
        rw [← hfs] at hpend
        simp [gradeUpdatedStudent] at hpend
      · rw [if_neg hc] at hfs
        subst hfs
        exact hinv s hs hpend
  · intro a sid qid newKey hinv st2 hmem2 hpend
    rcases handleKeyChange_students_cases a sid qid newKey with heq
      | ⟨st, item, g, ans, hf, hg, hans, hne, heq⟩
    · rw [heq] at hmem2
      exact hinv st2 hmem2 hpend
    · have hstat : st.status = SubmissionStatus.GRADED := by
        cases hcase : st.status with
        | GRADED => rfl
        | PENDING =>
          have hempty := hinv st (List.mem_of_find?_eq_some hf) hcase
          rw [hempty] at hg
          simp [recordGet] at hg
      rw [heq] at hmem2
      rcases List.mem_map.mp hmem2 with ⟨s, hs, hfs⟩
      by_cases hc : s.id = st.id
      · rw [if_pos hc] at hfs
        rw [← hfs] at hpend
        simp [keyUpdatedStudent, hstat] at hpend
      · rw [if_neg hc] at hfs
        subst hfs
        exact hinv s hs hpend
  · intro a sid results hinv st2 hmem2 hpend
    rcases runAiGrading_cases a sid results with heq | ⟨st, hf, hfile, heq⟩
    · rw [heq] at hmem2
      exact hinv st2 hmem2 hpend
    · rw [heq] at hmem2
      rcases List.mem_map.mp hmem2 with ⟨s, hs, hfs⟩
      by_cases hc : s.id = sid
      · rw [if_pos hc] at hfs
        rw [← hfs] at hpend
        simp [aiUpdatedStudent] at hpend
      · rw [if_neg hc] at hfs
        subst hfs
        exact hinv s hs hpend

/-- Witness for C6: on the sample assessment (pending students with empty
grades) a concrete grade edit yields a GRADED student, and the invariant is
preserved. -/
theorem status_transitions_witness :
    ((handleGradeChange sampleA "s1" "q1" GradePatch.empty).students.length
        = sampleA.students.length)
    ∧ (gradeUpdatedStudent sampleA.rubric "q1" GradePatch.empty sampleStudent1).status
        = SubmissionStatus.GRADED
    ∧ GradesInv (handleGradeChange sampleA "s1" "q1" GradePatch.empty) :=
  ⟨(status_transitions.2.1 sampleA "s1" "q1" GradePatch.empty).1,
   ((status_transitions.2.1 sampleA "s1" "q1" GradePatch.empty).2 0 sampleStudent1
      (gradeUpdatedStudent sampleA.rubric "q1" GradePatch.empty sampleStudent1)
      (by rfl) (by rfl)).2 (by decide),
   status_transitions.2.2.2.2.1 sampleA "s1" "q1" GradePatch.empty
     (by
       intro st hst hp
       have hst2 : st = sampleStudent1 ∨ st = sampleStudent2 := by
         simpa [sampleA] using hst
       rcases hst2 with h | h <;> rw [h] <;> rfl)⟩

/-! ## PDF splitter lemmas -/

lemma filter_range_lt (n : Nat) (m : Int) :
    (List.range n).filter (fun (k : Nat) => decide ((k : Int) < m)) = List.range (min n m.toNat) := by
  induction n with
  | zero => simp
  | succ n ih =>
    rw [List.range_succ, List.filter_append, ih]
    by_cases h : (n : Int) < m
    · have h1 : min (n + 1) m.toNat = n + 1 := by omega
      have h2 : min n m.toNat = n := by omega
      rw [h1, h2]
      simp [h, List.range_succ]
    · have h1 : min (n + 1) m.toNat = min n m.toNat := by omega
      rw [h1]
      simp [h]

lemma pageIndicesFor_eq (pc : Nat) (r : SplitRange) :
    pageIndicesFor pc r
      = (List.range (min r.endPage (pc : Int) + 1 - r.startPage).toNat).map
          (fun (k : Nat) => (r.startPage - 1) + (k : Int)) := by
  unfold pageIndicesFor intRange
  rw [List.filter_map, List.map_map]
  rw [List.filter_congr (q := fun (k : Nat) => decide ((k : Int) < pc + 1 - r.startPage))
    (fun k _ => by
      simp only [Function.comp]
      exact decide_eq_decide.mpr (by omega))]
  rw [filter_range_lt]
  have hn : min (r.endPage + 1 - r.startPage).toNat (pc + 1 - r.startPage).toNat
      = (min r.endPage (pc : Int) + 1 - r.startPage).toNat := by omega
  rw [hn]
  exact List.map_congr_left (fun k _ => by
    simp only [Function.comp]
    omega)

lemma copyPages_range {α : Type} (src : List α) (a : Int) (n : Nat) (ha : 0 ≤ a)
    (h : a.toNat + n ≤ src.length) :
    copyPages src ((List.range n).map (fun (k : Nat) => a + (k : Int)))
      = some ((src.drop a.toNat).take n) := by
  induction n generalizing a with
  | zero => rfl
  | succ n ih =>
    rw [List.range_succ_eq_map, List.map_cons, List.map_map]
    have hlt : a.toNat < src.length := by omega
    have htl : (List.range n).map ((fun (k : Nat) => a + (k : Int)) ∘ Nat.succ)
        = (List.range n).map (fun (k : Nat) => (a + 1) + (k : Int)) :=
      List.map_congr_left (fun k _ => by simp only [Function.comp]; omega)
    rw [htl]
    have hih := ih (a + 1) (by omega) (by omega)
    have ht1 : (a + 1).toNat = a.toNat + 1 := by omega
    rw [ht1] at hih
    simp only [copyPages, List.mapM_cons] at hih ⊢
    simp only [Nat.cast_zero, add_zero]
    rw [if_pos ha, List.getElem?_eq_getElem hlt, hih]
    simp only [Option.bind_some, Option.bind_eq_bind, Option.some_bind]
    rw [List.drop_eq_getElem_cons hlt, List.take_succ_cons]
    rfl

lemma splitPdf_eq_filterMap {α : Type} (src : List α) (ranges : List SplitRange)
    (h1 : ∀ r ∈ ranges, 1 ≤ r.startPage) :
    splitPdfByRanges src ranges
      = some (ranges.filterMap (fun r =>
          if r.startPage ≤ min r.endPage (src.length : Int) then
            some (r.studentName,
              (src.drop (r.startPage - 1).toNat).take
                (min r.endPage (src.length : Int) + 1 - r.startPage).toNat)
          else none)) := by
  induction ranges with
  | nil => rfl
  | cons r rs ih =>
    have hs : 1 ≤ r.startPage := h1 r (List.mem_cons_self _ _)
    have hrest := ih (fun r2 hm => h1 r2 (List.mem_cons_of_mem _ hm))
    have hlen : (pageIndicesFor src.length r).length
        = (min r.endPage (src.length : Int) + 1 - r.startPage).toNat := by
      rw [pageIndicesFor_eq]
      simp
    rw [List.filterMap_cons]
    by_cases hc : r.startPage ≤ min r.endPage (src.length : Int)
    · have hμ : min r.endPage (src.length : Int) ≤ (src.length : Int) :=
        min_le_right _ _
      have hcp : copyPages src (pageIndicesFor src.length r)
          = some ((src.drop (r.startPage - 1).toNat).take
              (min r.endPage (src.length : Int) + 1 - r.startPage).toNat) := by
        rw [pageIndicesFor_eq]
        exact copyPages_range src (r.startPage - 1) _ (by omega) (by omega)
      have hpos : (pageIndicesFor src.length r).length > 0 := by
        rw [hlen]
        omega
      simp only [splitPdfByRanges]
      rw [if_pos hpos, hcp, hrest, if_pos hc]
    · have hzero : (pageIndicesFor src.length r).length = 0 := by
        have hμ1 := min_le_left r.endPage (src.length : Int)
        rw [hlen]
        omega
      simp only [splitPdfByRanges]
      rw [if_neg (by omega : ¬ (pageIndicesFor src.length r).length > 0), hrest, if_neg hc]

/-- C1: for ranges that are valid for the source (1 ≤ startPage ≤ endPage ≤
pageCount), `splitPdfByRanges` succeeds and produces one output document per
range, in input order, containing exactly the source's pages
startPage..endPage in original order — that is, endPage - startPage + 1
pages. -/
theorem splitPdf_valid_ranges {α : Type} (src : List α) (ranges : List SplitRange)
    (hv : ∀ r ∈ ranges,
      1 ≤ r.startPage ∧ r.startPage ≤ r.endPage ∧ r.endPage ≤ (src.length : Int)) :
    splitPdfByRanges src ranges
      = some (ranges.map (fun r =>
          (r.studentName,
            (src.drop (r.startPage - 1).toNat).take (r.endPage - r.startPage + 1).toNat)))
    ∧ ∀ r ∈ ranges,
        ((src.drop (r.startPage - 1).toNat).take (r.endPage - r.startPage + 1).toNat).length
          = (r.endPage - r.startPage + 1).toNat := by
  constructor
  · rw [splitPdf_eq_filterMap src ranges (fun r h => (hv r h).1)]
    congr 1
    induction ranges with
    | nil => rfl
    | cons r rs ih =>
      obtain ⟨hv1, hv2, hv3⟩ := hv r (List.mem_cons_self _ _)
      have hmin : min r.endPage (src.length : Int) = r.endPage := min_eq_left hv3
      have hbound : r.endPage + 1 - r.startPage = r.endPage - r.startPage + 1 := by ring
      rw [List.filterMap_cons, List.map_cons, hmin, if_pos hv2, hbound,
        ih (fun r2 hm => hv r2 (List.mem_cons_of_mem _ hm))]
  · intro r hr
    obtain ⟨hv1, hv2, hv3⟩ := hv r hr
    rw [List.length_take, List.length_drop]
    omega

/-- Witness for C1: a 4-page source split into pages 1-2 and 3-4. -/
theorem splitPdf_valid_ranges_witness :
    splitPdfByRanges ([10, 20, 30, 40] : List ℕ)
        [⟨"Alice", 1, 2⟩, ⟨"Bob", 3, 4⟩]
      = some [("Alice", [10, 20]), ("Bob", [30, 40])]
    ∧ (([10, 20, 30, 40] : List ℕ).drop 0).take 2 = [10, 20] := by
  have h := (splitPdf_valid_ranges ([10, 20, 30, 40] : List ℕ)
    [⟨"Alice", 1, 2⟩, ⟨"Bob", 3, 4⟩] (by decide)).1
  constructor
  · rw [h]
    rfl
  · rfl

/-- C2: every collected page index is strictly below the source's page count
(indices at or beyond it are skipped); a range with startPage > endPage
collects no page; and for ranges with startPage ≥ 1 the call succeeds, each
range is clipped to min endPage pageCount, and a range left with no valid page
after clipping produces no output entry. -/
theorem splitPdf_clipping {α : Type} (src : List α) (ranges : List SplitRange) :
    (∀ r ∈ ranges, ∀ i ∈ pageIndicesFor src.length r, i < (src.length : Int))
    ∧ (∀ r ∈ ranges, r.endPage < r.startPage → pageIndicesFor src.length r = [])
    ∧ ((∀ r ∈ ranges, 1 ≤ r.startPage) →
        splitPdfByRanges src ranges
          = some (ranges.filterMap (fun r =>
              if r.startPage ≤ min r.endPage (src.length : Int) then
                some (r.studentName,
                  (src.drop (r.startPage - 1).toNat).take
                    (min r.endPage (src.length : Int) + 1 - r.startPage).toNat)
              else none))) := by
  refine ⟨?_, ?_, splitPdf_eq_filterMap src ranges⟩
  · intro r _ i hi
    simp only [pageIndicesFor, List.mem_map, List.mem_filter] at hi
    obtain ⟨j, ⟨_, hj⟩, hij⟩ := hi
    simp only [decide_eq_true_eq] at hj
    omega
  · intro r _ hlt
    have hμ := min_le_left r.endPage (src.length : Int)
    have h0 : (min r.endPage (src.length : Int) + 1 - r.startPage).toNat = 0 := by omega
    rw [pageIndicesFor_eq, h0]
    rfl

/-- Witness for C2: on a 4-page source, the reversed range (3,2) collects no
page, and the batch [(3,9), (3,2), (5,9)] yields exactly one document holding
pages 3-4. -/
theorem splitPdf_clipping_witness :
    pageIndicesFor 4 ⟨"Bob", 3, 2⟩ = []
    ∧ splitPdfByRanges ([10, 20, 30, 40] : List ℕ)
        [⟨"C", 3, 9⟩, ⟨"Bob", 3, 2⟩, ⟨"E", 5, 9⟩]
      = some [("C", [30, 40])] := by
  constructor
  · exact (splitPdf_clipping ([10, 20, 30, 40] : List ℕ) [⟨"Bob", 3, 2⟩]).2.1
      ⟨"Bob", 3, 2⟩ (by decide) (by decide)
  · have h := (splitPdf_clipping ([10, 20, 30, 40] : List ℕ)
      [⟨"C", 3, 9⟩, ⟨"Bob", 3, 2⟩, ⟨"E", 5, 9⟩]).2.2 (by decide)
    rw [h]
    rfl

end TeachingTools
